import Mathlib

/-!
Verification of the pyPolyampholyte titration model (polyampholyte.py)
against its natural-language specification.

Shallow embedding conventions:
* pandas DataFrame columns become parallel fields of a `Row` record; the
  group-property table `group_properties.amino_acids` (a repository data
  asset whose file is not part of the verified sources) is a pair of
  parameters: its rows (`List GroupRow`) and the names of its pKa columns
  (`List String`); looking up a pKa column name outside that list raises
  `KeyError`, as pandas does. The spec-documented table shape (24 rows,
  the last two being the N- and C-terminus) is taken as hypotheses where
  needed.
* float NaN is `Option.none`; a NaN-poisoned numpy sum is `sumOpt`.
* Python exceptions (`ValueError`, `AssertionError`, pandas length
  mismatch, numpy's negative-sample-count error) are `Except.error`.
* machine floats are modelled exactly: table data and abundances as `ℚ`,
  pH values and charges (which involve `10 ** x`) as `ℝ` with `Real.rpow`.
* `scipy.optimize.brentq` is external; it is abstracted by an arbitrary
  solver satisfying its documented contract (`ValueError` when the two
  bracket values share a strict sign), see `BrentqContract`.
-/

namespace PyPolyampholyte

/-- One row of the group property table `group_properties.amino_acids`:
molar mass, residue molar mass (NaN for some rows, hence `Option`),
charge indicator and the pKa value under each named scheme (a pandas
column lookup; `none` models NaN for schemes that do not cover the
group). -/
structure GroupRow where
  id : String
  molar_mass : ℚ
  molar_mass_residue : Option ℚ
  charge_indicator : ℚ
  pka : String → Option ℚ

/-- One row of `self.dataset` after `initialize_dataset` added the
`abundance_input`, `abundance_norm` and `mass_percent` columns. -/
structure Row where
  props : GroupRow
  abundance_input : ℚ
  abundance_norm : ℚ
  mass_percent : ℚ

/-- The state of a `polyampholyte` object after construction.
`kwargs_abundance` is the caller's abundance list object as stored in
`self.kwargs` after construction (Python's `list.extend` pads it in
place, so the padded list is what the caller ends up holding). -/
structure polyampholyte where
  mode : String
  kwargs_abundance : Option (List ℚ)
  dataset : List Row
  amino_acid_sequence : Option String
  number_of_residues : Option ℕ
  pka_data : String
  IEP_dataset : List Row
deriving Inhabited

/-- Python's non-overlapping substring count `s.count(pat)`, scanning
left to right and skipping `pat.length` characters after each match
(structural recursion on `s` with a skip counter). -/
def pyCountGo (pat : List Char) : List Char → ℕ → ℕ
  | [], _ => 0
  | c :: rest, 0 =>
    if pat.isPrefixOf (c :: rest) then 1 + pyCountGo pat rest (pat.length - 1)
    else pyCountGo pat rest 0
  | _ :: rest, k + 1 => pyCountGo pat rest k

/-- Python's `s.count(pat)` (for the empty pattern Python returns
`len(s) + 1`). -/
def pyCount (s pat : List Char) : ℕ :=
  if pat = [] then s.length + 1 else pyCountGo pat s 0

/-- The three derived columns added to the table by `initialize_dataset`
lines 81-91: `abundance_norm = abundance_input / np.sum(abundance_input
values[:-2])` (the two terminus rows are excluded from the denominator)
and `mass_percent = abundance_input * molar_mass / np.sum(abundance_input
* molar_mass)`. -/
def mkRows (tbl : List GroupRow) (ab : List ℚ) : List Row :=
  let denomNorm : ℚ := (ab.take (tbl.length - 2)).sum
  let denomMass : ℚ := (List.zipWith (fun (a : ℚ) (g : GroupRow) => a * g.molar_mass) ab tbl).sum
  List.zipWith (fun (g : GroupRow) (a : ℚ) =>
    { props := g, abundance_input := a, abundance_norm := a / denomNorm,
      mass_percent := a * g.molar_mass / denomMass }) tbl ab

/-- Assembles the object state at the end of `initialize_dataset`:
stores the chosen pKa scheme name and precomputes `IEP_dataset`, the
rows whose value under that scheme is not NaN (lines 100-103). -/
def mkPoly (tbl : List GroupRow) (ab : List ℚ) (kw : Option (List ℚ))
    (seq : Option String) (nres : Option ℕ) (scheme : String) : polyampholyte :=
  let rows := mkRows tbl ab
  { mode := ("protein"), kwargs_abundance := kw, dataset := rows,
    amino_acid_sequence := seq, number_of_residues := nres,
    pka_data := scheme,
    IEP_dataset := rows.filter (fun r => (r.props.pka scheme).isSome) }

/-- The abundance list built from a sequence (lines 63-71): occurrence
counts of the first 20 table keys, then `[0, 0, 1, 1]` for Hyp, Hyl,
N_term and C_term. -/
def seqAbundance (tbl : List GroupRow) (s : String) : List ℚ :=
  (tbl.take 20).map (fun g => (pyCount s.data g.id.data : ℚ)) ++ [0, 0, 1, 1]

/-- `polyampholyte.initialize_dataset` (lines 40-105). The table is the
pair of parameters `amino_acids` (its rows) and `pka_columns` (the names
of its pKa columns); `abundance`, `sequence` and `pka_data` model
presence or absence of the corresponding kwargs. A given abundance list
is padded in place with zeros up to the table length (line 58); the
pandas column assignment `self.dataset['abundance_input'] = abundance`
raises when the list length does not match the table length; after the
normalization steps, the column lookup `self.dataset[self.pka_data]`
(line 102) raises `KeyError` when the selected scheme names no pKa
column of the table. -/
def initialize_dataset (amino_acids : List GroupRow) (pka_columns : List String)
    (mode : String) (abundance : Option (List ℚ)) (sequence : Option String)
    (pka_data : Option String) : Except String polyampholyte :=
  if mode = ("protein") then
    match abundance with
    | some ab0 =>
      let ab := ab0 ++ List.replicate (amino_acids.length - ab0.length) 0
      if ab.length = amino_acids.length then
        if (pka_data.getD ("pka_bjellqvist")) ∈ pka_columns then
          Except.ok (mkPoly amino_acids ab (some ab) none none
            (pka_data.getD ("pka_bjellqvist")))
        else Except.error ("KeyError")
      else Except.error ("Length of values does not match length of index")
    | none =>
      match sequence with
      | some s =>
        let ab := seqAbundance amino_acids s
        if ab.length = amino_acids.length then
          if (pka_data.getD ("pka_bjellqvist")) ∈ pka_columns then
            Except.ok (mkPoly amino_acids ab none (some s) (some s.length)
              (pka_data.getD ("pka_bjellqvist")))
          else Except.error ("KeyError")
        else Except.error ("Length of values does not match length of index")
      | none => Except.error ("Unknown or missing input for protein composition.")
  else Except.error ("Unknown mode for IEP calculation.")

/-- The post-construction reassignment `instance.pka_data = s` (the only
mutation the object supports; nothing else is recomputed). -/
def set_pka_data (p : polyampholyte) (s : String) : polyampholyte :=
  { p with pka_data := s }

/-- One summand of the titration model, `charge_indicator *
abundance_norm / (1 + 10 ** (charge_indicator * (pH - pKa)))`, exactly
as broadcast in `calc_charge` (lines 131-135) and `calc_charge_curve`
(lines 160-165). -/
noncomputable def chargeTerm (ci an pka pH : ℝ) : ℝ :=
  ci * an / (1 + (10 : ℝ) ^ (ci * (pH - pka)))

/-- numpy's `np.sum` over an ndarray of possibly-NaN entries: a single
NaN makes the whole sum NaN (`none`); the empty sum is `0`. -/
noncomputable def sumOpt : List (Option ℝ) → Option ℝ
  | [] => some 0
  | none :: _ => none
  | some v :: xs => (sumOpt xs).map (fun s => v + s)

/-- `polyampholyte.calc_charge` (lines 107-136): sums the charge terms
over the precomputed `IEP_dataset` rows, reading the pKa column named by
the current `pka_data`; a row of `IEP_dataset` with NaN under that
column poisons the sum. -/
noncomputable def calc_charge (p : polyampholyte) (pH : ℝ) : Option ℝ :=
  sumOpt (p.IEP_dataset.map (fun r =>
    (r.props.pka p.pka_data).map (fun k =>
      chargeTerm (r.props.charge_indicator : ℝ) (r.abundance_norm : ℝ) (k : ℝ) pH)))

/-- Statement of the specification formula for `charge(pH)`: the sum
over the active groups, the rows of the table whose pKa under the
currently selected scheme is defined. Written from the spec's words for
comparison with `calc_charge`. -/
noncomputable def charge_spec (p : polyampholyte) (pH : ℝ) : ℝ :=
  ((p.dataset.filter (fun r => (r.props.pka p.pka_data).isSome)).map (fun r =>
    chargeTerm (r.props.charge_indicator : ℝ) (r.abundance_norm : ℝ)
      (((r.props.pka p.pka_data).getD 0 : ℚ) : ℝ) pH)).sum

/-- `np.linspace(lo, hi, num)`: `num` equally spaced samples; numpy
raises `ValueError` for a negative sample count and returns `[lo]` for
`num = 1` (the formula below yields that too, since `x / 0 = 0`). -/
noncomputable def linspace (lo hi : ℝ) (num : ℤ) : Except String (List ℝ) :=
  if num < 0 then Except.error ("Number of samples must be non-negative.")
  else Except.ok ((List.range num.toNat).map (fun (i : ℕ) =>
    lo + (i : ℝ) * (hi - lo) / ((num : ℝ) - 1)))

/-- `polyampholyte.calc_charge_curve` (lines 138-166): samples the pH
range with `np.linspace` (Python defaults `ph_range=[0, 14]`,
`data_points=100`) and evaluates the broadcast titration formula at
every sample; no validation of the range or of the number of points is
performed. Returns the pair of rows of the returned 2D array. -/
noncomputable def calc_charge_curve (p : polyampholyte) (lo hi : ℝ)
    (data_points : ℤ) : Except String (List ℝ × List (Option ℝ)) :=
  (linspace lo hi data_points).map (fun pH =>
    (pH, pH.map (fun x =>
      sumOpt (p.IEP_dataset.map (fun r =>
        (r.props.pka p.pka_data).map (fun k =>
          chargeTerm (r.props.charge_indicator : ℝ) (r.abundance_norm : ℝ) (k : ℝ) x))))))

/-- Documented contract of `scipy.optimize.brentq` used by `calc_IEP`:
when the objective takes finite values of the same strict sign at the
two bracket ends, `brentq` raises `ValueError` (NaN objective values
are `none` and never satisfy the premise). -/
def BrentqContract (solver : (ℝ → Option ℝ) → ℝ → ℝ → Except Unit ℝ) : Prop :=
  ∀ f a b ya yb, f a = some ya → f b = some yb → 0 < ya * yb →
    solver f a b = Except.error ()

/-- `polyampholyte.calc_IEP` (lines 168-190): runs `brentq` on
`calc_charge` over the range (Python default `[0, 14]`) and converts a
raised `ValueError` into the `np.nan` sentinel (`none`) via the
`try/except` block. The solver is any function honouring
`BrentqContract`. -/
noncomputable def calc_IEP (solver : (ℝ → Option ℝ) → ℝ → ℝ → Except Unit ℝ)
    (p : polyampholyte) (lo hi : ℝ) : Option ℝ :=
  match solver (fun x => calc_charge p x) lo hi with
  | Except.ok r => some r
  | Except.error _ => none

/-- `polyampholyte.calc_molar_mass` (lines 192-198): asserts the
sequence is known, then `np.sum` of the pandas Series
`abundance_input * molar_mass_residue` (a pandas sum skips NaN
entries, so rows with NaN `molar_mass_residue` contribute nothing). -/
def calc_molar_mass (p : polyampholyte) : Except String ℚ :=
  if p.amino_acid_sequence.isSome then
    Except.ok ((p.dataset.map (fun r =>
      match r.props.molar_mass_residue with
      | some m => r.abundance_input * m
      | none => 0)).sum)
  else Except.error ("Amino acid sequence is not known")

/-- `polyampholyte.calc_mean_residue_mw` (lines 200-236): filters the
rows with non-NaN `molar_mass_residue`, sums `molar_mass_residue *
abundance_norm` over that filtered list minus its own last two entries
(`values[:-2]`), and, when `number_of_residues` is known, adds the full
`molar_mass * abundance_norm` of the last two rows of the whole table
(`values[-2:]`, the two termini). -/
def calc_mean_residue_mw (p : polyampholyte) : ℚ :=
  let mw_dataset := p.dataset.filter (fun r => r.props.molar_mass_residue.isSome)
  let base := ((mw_dataset.take (mw_dataset.length - 2)).map
    (fun r => r.props.molar_mass_residue.getD 0 * r.abundance_norm)).sum
  base + (if p.number_of_residues.isSome then
    ((p.dataset.drop (p.dataset.length - 2)).map
      (fun r => r.props.molar_mass * r.abundance_norm)).sum
  else 0)

/-- The residue-only abundance total: the sum of `abundance_input` over
all rows except the two termini (the denominator of the normalization). -/
def residueSum (p : polyampholyte) : ℚ :=
  ((p.dataset.take (p.dataset.length - 2)).map (fun r => r.abundance_input)).sum

/-! Concrete fixtures used by the witness theorems. -/

/-- A single acidic group (charge indicator −1) with pKa 7 under the
default scheme. -/
def rowD : GroupRow :=
  { id := ("D"), molar_mass := 1, molar_mass_residue := some 1,
    charge_indicator := -1,
    pka := fun s => if s = ("pka_bjellqvist") then some 7 else none }

/-- A terminus-like row with no pKa under any scheme. -/
def termRow (nm : String) : GroupRow :=
  { id := nm, molar_mass := 1, molar_mass_residue := some 1,
    charge_indicator := 1, pka := fun _ => none }

/-- A three-row table: one acidic group and the two termini. -/
def tblW : List GroupRow := [rowD, termRow ("N_term"), termRow ("C_term")]

/-- The pKa columns of `tblW`: only the default scheme. -/
def colsW : List String := [("pka_bjellqvist")]

/-- An instance built from the abundance list `[1]` over `tblW`. -/
def pW1 : polyampholyte :=
  (initialize_dataset tblW colsW ("protein") (some [1]) none none).toOption.getD default

/-- A group ionizable only under scheme `a`. -/
def rowA : GroupRow :=
  { id := ("A"), molar_mass := 1, molar_mass_residue := some 1,
    charge_indicator := -1, pka := fun s => if s = ("a") then some 4 else none }

/-- A group ionizable only under scheme `b`. -/
def rowB : GroupRow :=
  { id := ("B"), molar_mass := 1, molar_mass_residue := some 1,
    charge_indicator := 1, pka := fun s => if s = ("b") then some 9 else none }

/-- A table whose two groups are covered by disjoint pKa schemes. -/
def tbl2 : List GroupRow := [rowA, rowB, termRow ("N_term"), termRow ("C_term")]

/-- The pKa columns of `tbl2`: the two disjoint schemes. -/
def cols2 : List String := [("a"), ("b")]

/-- An instance over `tbl2` constructed with scheme `a` selected. -/
def p2 : polyampholyte :=
  (initialize_dataset tbl2 cols2 ("protein") (some [1, 1]) none
    (some ("a"))).toOption.getD default

/-- A 24-row table matching the shipped table's row count. -/
def tbl24 : List GroupRow := List.replicate 24 rowD

/-- An instance built from a sequence over the 24-row table. -/
def pSeq : polyampholyte :=
  (initialize_dataset tbl24 colsW ("protein") none (some ("DD")) none).toOption.getD default

/-- A root finder that always reports a missing bracket; it satisfies
`BrentqContract` and instantiates the C3 witness. -/
def solver0 : (ℝ → Option ℝ) → ℝ → ℝ → Except Unit ℝ := fun _ _ _ => Except.error ()

/-- The charge of `pW1` at pH 0 (one acidic group, unit normalized
abundance). -/
noncomputable def yaW : ℝ :=
  chargeTerm (((-1 : ℚ) : ℝ)) (((1 : ℚ) : ℝ)) (((7 : ℚ) : ℝ)) 0 + 0

/-- The charge of `pW1` at pH 14. -/
noncomputable def ybW : ℝ :=
  chargeTerm (((-1 : ℚ) : ℝ)) (((1 : ℚ) : ℝ)) (((7 : ℚ) : ℝ)) 14 + 0

/-- The curve of `pW1` over `[0, 14]` with three samples. -/
noncomputable def curveW : List ℝ × List (Option ℝ) :=
  (calc_charge_curve pW1 0 14 3).toOption.getD ([], [])

/-! Helper lemmas about the embedded operations. -/

theorem exists_of_mem_zipWith {α β γ : Type} {f : α → β → γ} :
    ∀ {l₁ : List α} {l₂ : List β} {c : γ}, c ∈ List.zipWith f l₁ l₂ → ∃ a b, c = f a b := by
  intro l₁
  induction l₁ with
  | nil => intro l₂ c h; simp at h
  | cons x xs ih =>
    intro l₂ c h
    cases l₂ with
    | nil => simp at h
    | cons y ys =>
      rw [List.zipWith_cons_cons, List.mem_cons] at h
      rcases h with h | h
      · exact ⟨x, y, h⟩
      · exact ih h

theorem zipWith_snd {α β : Type} :
    ∀ (l₁ : List α) (l₂ : List β), l₂.length ≤ l₁.length →
      List.zipWith (fun _ b => b) l₁ l₂ = l₂ := by
  intro l₁
  induction l₁ with
  | nil => intro l₂ h; cases l₂ <;> simp_all
  | cons x xs ih =>
    intro l₂ h
    cases l₂ with
    | nil => simp
    | cons y ys => simp at h; rw [List.zipWith_cons_cons, ih ys h]

theorem length_mkRows (tbl : List GroupRow) (ab : List ℚ) :
    (mkRows tbl ab).length = min tbl.length ab.length := by
  simp [mkRows]

theorem map_abundance_input_mkRows (tbl : List GroupRow) (ab : List ℚ)
    (h : ab.length ≤ tbl.length) :
    (mkRows tbl ab).map (fun r => r.abundance_input) = ab := by
  unfold mkRows
  rw [List.map_zipWith]
  exact zipWith_snd tbl ab h

theorem abundance_norm_of_mem_mkRows (tbl : List GroupRow) (ab : List ℚ) (r : Row)
    (h : r ∈ mkRows tbl ab) :
    r.abundance_norm = r.abundance_input / (ab.take (tbl.length - 2)).sum := by
  unfold mkRows at h
  obtain ⟨g, a, rfl⟩ := exists_of_mem_zipWith h
  rfl

theorem sumOpt_map_some {α : Type} (l : List α) (f : α → Option ℝ) (g : α → ℝ)
    (h : ∀ a ∈ l, f a = some (g a)) :
    sumOpt (l.map f) = some ((l.map g).sum) := by
  induction l with
  | nil => rfl
  | cons x xs ih =>
    rw [List.map_cons, h x (List.mem_cons_self x xs)]
    rw [List.map_cons, List.sum_cons]
    have ih' := ih (fun a ha => h a (List.mem_cons_of_mem x ha))
    simp [sumOpt, ih']

theorem sum_map_div (l : List ℚ) (d : ℚ) :
    (l.map (fun x => x / d)).sum = l.sum / d := by
  induction l with
  | nil => simp
  | cons x xs ih => simp [ih, add_div]

theorem filter_take_of_last_sat {α : Type} (P : α → Bool) (l : List α)
    (h2 : 2 ≤ l.length) (h : ∀ a ∈ l.drop (l.length - 2), P a) :
    (l.filter P).take ((l.filter P).length - 2) = (l.take (l.length - 2)).filter P := by
  have hsplit : l = l.take (l.length - 2) ++ l.drop (l.length - 2) :=
    (List.take_append_drop (l.length - 2) l).symm
  have hdlen : (l.drop (l.length - 2)).length = 2 := by
    rw [List.length_drop]; omega
  have hfd : (l.drop (l.length - 2)).filter P = l.drop (l.length - 2) :=
    List.filter_eq_self.mpr h
  conv_lhs => rw [hsplit]
  rw [List.filter_append, hfd]
  have hlen : ((l.take (l.length - 2)).filter P ++ l.drop (l.length - 2)).length - 2 =
      ((l.take (l.length - 2)).filter P).length := by
    rw [List.length_append, hdlen]
    omega
  rw [hlen, List.take_left]

theorem initialize_dataset_ok_cases (tbl : List GroupRow) (cols : List String)
    (mode : String) (ab : Option (List ℚ)) (sq : Option String) (pk : Option String)
    (p : polyampholyte)
    (h : initialize_dataset tbl cols mode ab sq pk = Except.ok p) :
    mode = ("protein") ∧ (pk.getD ("pka_bjellqvist")) ∈ cols ∧
    ((∃ l, ab = some l ∧
        (l ++ List.replicate (tbl.length - l.length) 0).length = tbl.length ∧
        p = mkPoly tbl (l ++ List.replicate (tbl.length - l.length) 0)
          (some (l ++ List.replicate (tbl.length - l.length) 0)) none none
          (pk.getD ("pka_bjellqvist"))) ∨
      (ab = none ∧ ∃ s, sq = some s ∧ (seqAbundance tbl s).length = tbl.length ∧
        p = mkPoly tbl (seqAbundance tbl s) none (some s) (some s.length)
          (pk.getD ("pka_bjellqvist")))) := by
  unfold initialize_dataset at h
  by_cases hm : mode = ("protein")
  · rw [if_pos hm] at h
    refine ⟨hm, ?_⟩
    cases ab with
    | some l =>
      dsimp only at h
      by_cases hl : (l ++ List.replicate (tbl.length - l.length) 0).length = tbl.length
      · rw [if_pos hl] at h
        by_cases hcol : (pk.getD ("pka_bjellqvist")) ∈ cols
        · rw [if_pos hcol] at h
          exact ⟨hcol, Or.inl ⟨l, rfl, hl, ((Except.ok.injEq _ _).mp h).symm⟩⟩
        · rw [if_neg hcol] at h
          exact absurd h (by simp)
      · rw [if_neg hl] at h
        exact absurd h (by simp)
    | none =>
      cases sq with
      | some s =>
        dsimp only at h
        by_cases hl : (seqAbundance tbl s).length = tbl.length
        · rw [if_pos hl] at h
          by_cases hcol : (pk.getD ("pka_bjellqvist")) ∈ cols
          · rw [if_pos hcol] at h
            exact ⟨hcol, Or.inr ⟨rfl, s, rfl, hl, ((Except.ok.injEq _ _).mp h).symm⟩⟩
          · rw [if_neg hcol] at h
            exact absurd h (by simp)
        · rw [if_neg hl] at h
          exact absurd h (by simp)
      | none => exact absurd h (by simp)
  · rw [if_neg hm] at h
    exact absurd h (by simp)

theorem ok_shape (tbl : List GroupRow) (cols : List String) (mode : String)
    (ab : Option (List ℚ)) (sq : Option String) (pk : Option String) (p : polyampholyte)
    (h : initialize_dataset tbl cols mode ab sq pk = Except.ok p) :
    p.IEP_dataset = p.dataset.filter (fun r => (r.props.pka p.pka_data).isSome) ∧
    p.number_of_residues.isSome = p.amino_acid_sequence.isSome ∧
    ∃ abL, abL.length = tbl.length ∧ p.dataset = mkRows tbl abL := by
  obtain ⟨-, -, hc⟩ := initialize_dataset_ok_cases tbl cols mode ab sq pk p h
  rcases hc with ⟨l, -, hl, rfl⟩ | ⟨-, s, -, hl, rfl⟩
  · exact ⟨rfl, rfl, l ++ List.replicate (tbl.length - l.length) 0, hl, rfl⟩
  · exact ⟨rfl, rfl, seqAbundance tbl s, hl, rfl⟩

theorem solver0_contract : BrentqContract solver0 := by
  intro f a b ya yb h1 h2 h3
  rfl

/-! Claim theorems. -/

/-- C1: for every constructed polyampholyte instance and every pH,
`calc_charge` returns (as a defined, non-NaN value) the sum over exactly
the active groups — the table rows whose pKa under the selected scheme is
defined — of `charge_indicator * abundance_norm /
(1 + 10 ^ (charge_indicator * (pH - pKa)))`; rows without a pKa under the
scheme contribute nothing. -/
theorem C1_calc_charge_eq_spec (tbl : List GroupRow) (cols : List String)
    (mode : String) (ab : Option (List ℚ)) (sq : Option String) (pk : Option String)
    (p : polyampholyte)
    (h : initialize_dataset tbl cols mode ab sq pk = Except.ok p) (pH : ℝ) :
    calc_charge p pH = some (charge_spec p pH) := by
  obtain ⟨hIEP, -, -⟩ := ok_shape tbl cols mode ab sq pk p h
  unfold calc_charge charge_spec
  rw [hIEP]
  apply sumOpt_map_some
  intro r hr
  have hs := (List.mem_filter.mp hr).2
  obtain ⟨k, hk⟩ := Option.isSome_iff_exists.mp (by simpa using hs)
  simp [hk]

/-- Witness for C1: the concrete instance `pW1` at pH 0. -/
theorem C1_witness : calc_charge pW1 0 = some (charge_spec pW1 0) :=
  C1_calc_charge_eq_spec tblW colsW ("protein") (some [1]) none none pW1 rfl 0

/-- C2 is false on the code: reassigning `pka_data` does not recompute the
active set. Over `tbl2`, construction under scheme `a` activates only `rowA`;
after switching to scheme `b` the claim predicts the sum over the rows
defined under the new scheme (`rowB`), but `calc_charge` still iterates the
construction-time active row, whose missing value under `b` poisons the
result to NaN instead. -/
theorem C2_counterexample :
    calc_charge (set_pka_data p2 ("b")) 9 ≠
      some (charge_spec (set_pka_data p2 ("b")) 9) := by
  have hnone : calc_charge (set_pka_data p2 ("b")) 9 = none := rfl
  rw [hnone]
  exact fun hcontra => Option.noConfusion hcontra

/-- C2 amended: reassigning the `pka_data` selector changes only which pKa
column subsequent calls read; the dataset (hence `abundance_norm` and
`mass_percent`) is untouched and the active set `IEP_dataset` is NOT
recomputed — it remains the rows defined under the construction-time
scheme, and `calc_charge` sums the new column over those old rows. -/
theorem C2_amended (tbl : List GroupRow) (cols : List String) (mode : String)
    (ab : Option (List ℚ)) (sq : Option String) (pk : Option String) (p : polyampholyte)
    (h : initialize_dataset tbl cols mode ab sq pk = Except.ok p) (s : String) :
    (set_pka_data p s).pka_data = s ∧
    (set_pka_data p s).dataset = p.dataset ∧
    (set_pka_data p s).IEP_dataset =
      p.dataset.filter (fun r => (r.props.pka p.pka_data).isSome) ∧
    ∀ pH, calc_charge (set_pka_data p s) pH =
      sumOpt (p.IEP_dataset.map (fun r => (r.props.pka s).map (fun k =>
        chargeTerm (r.props.charge_indicator : ℝ) (r.abundance_norm : ℝ) (k : ℝ) pH))) := by
  obtain ⟨hIEP, -, -⟩ := ok_shape tbl cols mode ab sq pk p h
  exact ⟨rfl, rfl, hIEP, fun pH => rfl⟩

/-- Witness for the amended C2 at `p2` switched to scheme `b`. -/
theorem C2_amended_witness :
    (set_pka_data p2 ("b")).dataset = p2.dataset ∧
    (set_pka_data p2 ("b")).IEP_dataset =
      p2.dataset.filter (fun r => (r.props.pka p2.pka_data).isSome) := by
  obtain ⟨-, h1, h2, -⟩ := C2_amended tbl2 cols2 ("protein") (some [1, 1]) none
    (some ("a")) p2 rfl ("b")
  exact ⟨h1, h2⟩

/-- C3: if `calc_charge` is finite with the same strict sign at both ends of
the range, `calc_IEP` returns the NaN sentinel (`none`) — and, being a total
function, raises nothing — for every root finder honouring brentq's
documented same-sign `ValueError` contract. -/
theorem C3_same_sign_nan (solver : (ℝ → Option ℝ) → ℝ → ℝ → Except Unit ℝ)
    (hs : BrentqContract solver) (p : polyampholyte) (lo hi ya yb : ℝ)
    (_hlt : lo < hi) (hya : calc_charge p lo = some ya)
    (hyb : calc_charge p hi = some yb)
    (hsign : (0 < ya ∧ 0 < yb) ∨ (ya < 0 ∧ yb < 0)) :
    calc_IEP solver p lo hi = none := by
  have hprod : 0 < ya * yb := by
    rcases hsign with ⟨h1, h2⟩ | ⟨h1, h2⟩
    · exact mul_pos h1 h2
    · exact mul_pos_of_neg_of_neg h1 h2
  unfold calc_IEP
  rw [hs (fun x => calc_charge p x) lo hi ya yb hya hyb hprod]

/-- Witness for C3: the all-acidic instance `pW1` (its one active group has
charge indicator −1) yields the NaN sentinel over `[0, 14]`. -/
theorem C3_witness : calc_IEP solver0 pW1 0 14 = none := by
  have hya : calc_charge pW1 0 = some yaW := by
    simp [calc_charge, pW1, tblW, colsW, initialize_dataset, mkPoly, mkRows, rowD,
      termRow, sumOpt, yaW, Except.toOption]
  have hyb : calc_charge pW1 14 = some ybW := by
    simp [calc_charge, pW1, tblW, colsW, initialize_dataset, mkPoly, mkRows, rowD,
      termRow, sumOpt, ybW, Except.toOption]
  have hA : yaW < 0 := by
    unfold yaW chargeTerm
    push_cast
    have hden : (0:ℝ) < 1 + (10:ℝ) ^ ((-1 : ℝ) * ((0:ℝ) - 7)) := by positivity
    have hq := div_neg_of_neg_of_pos (show (-1 : ℝ) * 1 < 0 by norm_num) hden
    linarith
  have hB : ybW < 0 := by
    unfold ybW chargeTerm
    push_cast
    have hden : (0:ℝ) < 1 + (10:ℝ) ^ ((-1 : ℝ) * ((14:ℝ) - 7)) := by positivity
    have hq := div_neg_of_neg_of_pos (show (-1 : ℝ) * 1 < 0 by norm_num) hden
    linarith
  exact C3_same_sign_nan solver0 solver0_contract pW1 0 14 yaW ybW
    (by norm_num) hya hyb (Or.inr ⟨hA, hB⟩)

/-- C4: a successful `calc_charge_curve` call returns two sequences of
length `data_points`; the first is the equal-spacing sampling of
`[lo, hi]` (first sample `lo` and last sample `hi` once there are at
least two samples, nondecreasing when `lo ≤ hi`), and the second is
pointwise exactly the scalar `calc_charge` at the corresponding sample. -/
theorem C4_curve_matches_scalar (p : polyampholyte) (lo hi : ℝ) (n : ℤ)
    (pHs : List ℝ) (curve : List (Option ℝ))
    (h : calc_charge_curve p lo hi n = Except.ok (pHs, curve)) :
    pHs.length = n.toNat ∧ curve.length = n.toNat ∧
    curve = pHs.map (fun x => calc_charge p x) ∧
    (∀ i, i < n.toNat → pHs.getD i 0 = lo + (i : ℝ) * (hi - lo) / ((n : ℝ) - 1)) ∧
    (2 ≤ n → pHs.getD 0 0 = lo ∧ pHs.getD (n.toNat - 1) 0 = hi) ∧
    (lo ≤ hi → pHs.Chain' (fun a b => a ≤ b)) := by
  unfold calc_charge_curve linspace at h
  by_cases hn : n < 0
  · rw [if_pos hn] at h
    exact absurd h (by simp [Except.map])
  · rw [if_neg hn] at h
    simp only [Except.map] at h
    have h' := (Except.ok.injEq _ _).mp h
    rw [Prod.ext_iff] at h'
    obtain ⟨hp, hc⟩ := h'
    simp only at hp hc
    subst hp
    subst hc
    have hidx : ∀ i, i < n.toNat →
        (((List.range n.toNat).map (fun (i : ℕ) =>
          lo + (i : ℝ) * (hi - lo) / ((n : ℝ) - 1))).getD i 0) =
          lo + (i : ℝ) * (hi - lo) / ((n : ℝ) - 1) := by
      intro i hi'
      simp [List.getD, hi']
    refine ⟨by simp, by simp, rfl, hidx, ?_, ?_⟩
    · intro hn2
      have hm2 : 2 ≤ n.toNat := by omega
      have hcast : ((n.toNat - 1 : ℕ) : ℝ) = (n : ℝ) - 1 := by
        have h1 : (1:ℕ) ≤ n.toNat := by omega
        rw [Nat.cast_sub h1, ← Int.cast_natCast, Int.toNat_of_nonneg (by omega : (0:ℤ) ≤ n)]
        norm_num
      have hne : ((n : ℝ) - 1) ≠ 0 := by
        have h2n : (2:ℝ) ≤ (n:ℝ) := by exact_mod_cast hn2
        intro hzero
        linarith
      constructor
      · rw [hidx 0 (by omega)]
        simp
      · rw [hidx (n.toNat - 1) (by omega), hcast]
        field_simp
    · intro hle
      rw [List.chain'_iff_get]
      intro i hilen
      simp only [List.length_map, List.length_range] at hilen
      have him : i + 1 < n.toNat := by omega
      have hn2 : (2:ℤ) ≤ n := by omega
      have hnpos : (0:ℝ) < (n : ℝ) - 1 := by
        have h2n : (2:ℝ) ≤ (n:ℝ) := by exact_mod_cast hn2
        linarith
      simp only [List.get_eq_getElem, List.getElem_map, List.getElem_range]
      have hnum : ((i : ℝ)) * (hi - lo) ≤ ((i + 1 : ℕ) : ℝ) * (hi - lo) := by
        apply mul_le_mul_of_nonneg_right _ (by linarith)
        push_cast
        linarith
      have hdiv : (i : ℝ) * (hi - lo) / ((n : ℝ) - 1) ≤
          ((i + 1 : ℕ) : ℝ) * (hi - lo) / ((n : ℝ) - 1) := by gcongr
      exact add_le_add_left hdiv lo

/-- Witness for C4: the three-point curve of `pW1` over `[0, 14]` starts at
0, ends at 14 and agrees pointwise with the scalar `calc_charge`. -/
theorem C4_witness :
    curveW.1.getD 0 0 = 0 ∧ curveW.1.getD 2 0 = 14 ∧
    curveW.2 = curveW.1.map (fun x => calc_charge pW1 x) := by
  obtain ⟨-, -, h3, -, h5, -⟩ := C4_curve_matches_scalar pW1 0 14 3 curveW.1 curveW.2 rfl
  obtain ⟨he1, he2⟩ := h5 (by norm_num)
  exact ⟨he1, he2, h3⟩

/-- C5: every `abundance_norm` entry (termini included) is
`abundance_input` divided by the residue-only abundance total, and hence
the normalized abundances over the non-terminus rows sum to one whenever
that total is nonzero. -/
theorem C5_normalization (tbl : List GroupRow) (cols : List String) (mode : String)
    (ab : Option (List ℚ)) (sq : Option String) (pk : Option String) (p : polyampholyte)
    (h : initialize_dataset tbl cols mode ab sq pk = Except.ok p) :
    (∀ r ∈ p.dataset, r.abundance_norm = r.abundance_input / residueSum p) ∧
    (residueSum p ≠ 0 →
      ((p.dataset.take (p.dataset.length - 2)).map (fun r => r.abundance_norm)).sum = 1) := by
  obtain ⟨-, -, abL, habL, hds⟩ := ok_shape tbl cols mode ab sq pk p h
  have hlen : p.dataset.length = tbl.length := by
    rw [hds, length_mkRows, habL, min_self]
  have hden : residueSum p = (abL.take (tbl.length - 2)).sum := by
    unfold residueSum
    rw [hlen, hds, List.map_take, map_abundance_input_mkRows tbl abL (le_of_eq habL)]
  have hpt : ∀ r ∈ p.dataset, r.abundance_norm = r.abundance_input / residueSum p := by
    intro r hr
    rw [hds] at hr
    rw [abundance_norm_of_mem_mkRows tbl abL r hr, hden]
  refine ⟨hpt, fun hS => ?_⟩
  have hcong : (p.dataset.take (p.dataset.length - 2)).map (fun r => r.abundance_norm) =
      ((p.dataset.take (p.dataset.length - 2)).map (fun r => r.abundance_input)).map
        (fun x => x / residueSum p) := by
    rw [List.map_map]
    apply List.map_congr_left
    intro r hr
    exact hpt r (List.mem_of_mem_take hr)
  rw [hcong, sum_map_div]
  have hnum : ((p.dataset.take (p.dataset.length - 2)).map
      (fun r => r.abundance_input)).sum = residueSum p := rfl
  rw [hnum]
  exact div_self hS

/-- Witness for C5: over `tblW` with abundance `[1]`, the non-terminus
normalized abundances of `pW1` sum to one. -/
theorem C5_witness :
    ((pW1.dataset.take (pW1.dataset.length - 2)).map (fun r => r.abundance_norm)).sum = 1 := by
  have hS : residueSum pW1 ≠ 0 := by
    have h1 : residueSum pW1 = 1 := by
      simp [residueSum, pW1, tblW, colsW, initialize_dataset, mkPoly, mkRows, rowD,
        termRow, Except.toOption]
    rw [h1]
    norm_num
  exact (C5_normalization tblW colsW ("protein") (some [1]) none none pW1 rfl).2 hS

/-- C6 is false on the code: `calc_charge_curve` performs no validation of
the range, so a call with `lo = 5 > 1 = hi` (which the claim says must raise
an InvalidRange error) succeeds. -/
theorem C6_counterexample :
    (5 : ℝ) > 1 ∧ (calc_charge_curve pW1 5 1 3).isOk = true := ⟨by norm_num, rfl⟩

/-- C6 amended: `calc_charge_curve` has no `lo ≤ hi` or `points ≥ 2`
validation; it succeeds exactly when the number of points is nonnegative
(only numpy's negative-sample-count `ValueError` can be raised). The
embedded function reads but never writes the instance, so no call changes
instance state. -/
theorem C6_amended (p : polyampholyte) (lo hi : ℝ) (n : ℤ) :
    (calc_charge_curve p lo hi n).isOk = true ↔ 0 ≤ n := by
  unfold calc_charge_curve linspace
  by_cases hn : n < 0
  · rw [if_pos hn]
    constructor
    · intro hcontra
      exact absurd (show (false : Bool) = true from hcontra) (by decide)
    · intro h0
      exact absurd h0 (by omega)
  · rw [if_neg hn]
    constructor
    · intro _
      omega
    · intro _
      rfl

/-- C7 is false on the code: providing BOTH `abundance` and `sequence`
(which the claim says is rejected) succeeds — the abundance branch wins
and the sequence is silently ignored. -/
theorem C7_counterexample :
    (initialize_dataset tblW colsW ("protein") (some [1]) (some ("X")) none).isOk = true := rfl

/-- C7 amended: over the shipped 24-row table, construction succeeds iff
the mode is `protein`, either an abundance list of at most 24 entries is
provided (a longer one fails the pandas column-length check) — the
sequence argument, if also present, being ignored — or no abundance and
a sequence are provided, AND the selected scheme (the `pka_data` kwarg,
defaulting to `pka_bjellqvist`) names one of the table's pKa columns
(otherwise the line-102 column lookup raises `KeyError`). -/
theorem C7_amended (tbl : List GroupRow) (cols : List String) (mode : String)
    (ab : Option (List ℚ)) (sq : Option String) (pk : Option String)
    (h24 : tbl.length = 24) :
    (initialize_dataset tbl cols mode ab sq pk).isOk = true ↔
      (mode = ("protein") ∧
        ((∃ l, ab = some l ∧ l.length ≤ 24) ∨ (ab = none ∧ sq.isSome = true)) ∧
        (pk.getD ("pka_bjellqvist")) ∈ cols) := by
  unfold initialize_dataset
  by_cases hm : mode = ("protein")
  · rw [if_pos hm]
    cases ab with
    | some l =>
      dsimp only
      by_cases hl : (l ++ List.replicate (tbl.length - l.length) 0).length = tbl.length
      · rw [if_pos hl]
        by_cases hcol : (pk.getD ("pka_bjellqvist")) ∈ cols
        · rw [if_pos hcol]
          constructor
          · intro _
            refine ⟨hm, Or.inl ⟨l, rfl, ?_⟩, hcol⟩
            rw [List.length_append, List.length_replicate] at hl
            omega
          · intro _
            rfl
        · rw [if_neg hcol]
          constructor
          · intro hcontra
            exact absurd (show (false : Bool) = true from hcontra) (by decide)
          · rintro ⟨-, -, hcol'⟩
            exact absurd hcol' hcol
      · rw [if_neg hl]
        constructor
        · intro hcontra
          exact absurd (show (false : Bool) = true from hcontra) (by decide)
        · rintro ⟨-, hcase, -⟩
          rcases hcase with ⟨l', hl', hlen⟩ | ⟨hnone, -⟩
          · cases hl'
            exfalso
            apply hl
            rw [List.length_append, List.length_replicate]
            omega
          · exact absurd hnone (by simp)
    | none =>
      cases sq with
      | some s =>
        dsimp only
        have hl : (seqAbundance tbl s).length = tbl.length := by
          unfold seqAbundance
          rw [List.length_append, List.length_map, List.length_take]
          simp [h24]
        rw [if_pos hl]
        by_cases hcol : (pk.getD ("pka_bjellqvist")) ∈ cols
        · rw [if_pos hcol]
          constructor
          · intro _
            exact ⟨hm, Or.inr ⟨rfl, rfl⟩, hcol⟩
          · intro _
            rfl
        · rw [if_neg hcol]
          constructor
          · intro hcontra
            exact absurd (show (false : Bool) = true from hcontra) (by decide)
          · rintro ⟨-, -, hcol'⟩
            exact absurd hcol' hcol
      | none =>
        constructor
        · intro hcontra
          exact absurd (show (false : Bool) = true from hcontra) (by decide)
        · rintro ⟨-, hcase, -⟩
          rcases hcase with ⟨l', hl', -⟩ | ⟨-, hs⟩
          · exact absurd hl' (by simp)
          · exact absurd hs (by simp)
  · rw [if_neg hm]
    constructor
    · intro hcontra
      exact absurd (show (false : Bool) = true from hcontra) (by decide)
    · rintro ⟨hm', -, -⟩
      exact absurd hm' hm

/-- Witness for the amended C7: a one-entry abundance list over a 24-row
table, under the default scheme present among the table's columns,
constructs successfully. -/
theorem C7_amended_witness :
    (initialize_dataset tbl24 colsW ("protein") (some [1]) none none).isOk = true :=
  (C7_amended tbl24 colsW ("protein") (some [1]) none none (by simp [tbl24])).mpr
    ⟨rfl, Or.inl ⟨[1], rfl, by norm_num⟩, by simp [colsW]⟩

/-- C8: when the two terminus rows (the table's last two) carry a defined
`molar_mass_residue` — the shipped-table shape under which the code's
double slicing (`isna` mask, then `values[:-2]` of the masked frame) drops
exactly the termini — the mean residue MW is the sum of
`molar_mass_residue * abundance_norm` over the non-terminus rows with a
defined `molar_mass_residue`, plus, exactly for sequence-constructed
instances, the termini's full `molar_mass` weighted by `abundance_norm`. -/
theorem C8_mean_residue_mw (tbl : List GroupRow) (cols : List String) (mode : String)
    (ab : Option (List ℚ)) (sq : Option String) (pk : Option String) (p : polyampholyte)
    (h : initialize_dataset tbl cols mode ab sq pk = Except.ok p)
    (h2 : 2 ≤ tbl.length)
    (hterm : ∀ r ∈ p.dataset.drop (p.dataset.length - 2),
      r.props.molar_mass_residue.isSome) :
    calc_mean_residue_mw p =
      (((p.dataset.take (p.dataset.length - 2)).filter
          (fun r => r.props.molar_mass_residue.isSome)).map
        (fun r => r.props.molar_mass_residue.getD 0 * r.abundance_norm)).sum +
      (if p.amino_acid_sequence.isSome then
        ((p.dataset.drop (p.dataset.length - 2)).map
          (fun r => r.props.molar_mass * r.abundance_norm)).sum
      else 0) := by
  obtain ⟨-, hns, abL, habL, hds⟩ := ok_shape tbl cols mode ab sq pk p h
  have hlen : 2 ≤ p.dataset.length := by
    rw [hds, length_mkRows, habL, min_self]
    exact h2
  simp only [calc_mean_residue_mw]
  rw [filter_take_of_last_sat (fun r => r.props.molar_mass_residue.isSome)
    p.dataset hlen hterm]
  simp only [hns]

/-- Witness for C8 at `pW1`, whose table's terminus rows have a defined
residue molar mass. -/
theorem C8_witness :
    calc_mean_residue_mw pW1 =
      (((pW1.dataset.take (pW1.dataset.length - 2)).filter
          (fun r => r.props.molar_mass_residue.isSome)).map
        (fun r => r.props.molar_mass_residue.getD 0 * r.abundance_norm)).sum +
      (if pW1.amino_acid_sequence.isSome then
        ((pW1.dataset.drop (pW1.dataset.length - 2)).map
          (fun r => r.props.molar_mass * r.abundance_norm)).sum
      else 0) :=
  C8_mean_residue_mw tblW colsW ("protein") (some [1]) none none pW1 rfl
    (by decide) (by decide)

/-- C9: `calc_molar_mass` raises (the assertion fails) exactly when the
instance was constructed from an abundance list — equivalently, whenever
no sequence kwarg was used, regardless of the abundance values — and on a
sequence-constructed instance returns the sum of `abundance_input *
molar_mass_residue` (the pandas sum skipping undefined rows). -/
theorem C9_molar_mass (tbl : List GroupRow) (cols : List String) (mode : String)
    (ab : Option (List ℚ)) (sq : Option String) (pk : Option String) (p : polyampholyte)
    (h : initialize_dataset tbl cols mode ab sq pk = Except.ok p) :
    ((calc_molar_mass p).isOk = true ↔ ab = none) ∧
    (ab = none → calc_molar_mass p = Except.ok ((p.dataset.map (fun r =>
      match r.props.molar_mass_residue with
      | some m => r.abundance_input * m
      | none => 0)).sum)) := by
  obtain ⟨-, -, hc⟩ := initialize_dataset_ok_cases tbl cols mode ab sq pk p h
  rcases hc with ⟨l, hab, -, rfl⟩ | ⟨hab, s, -, -, rfl⟩
  · subst hab
    refine ⟨⟨fun hcontra => ?_, fun hcontra => ?_⟩, fun hcontra => ?_⟩
    · exact absurd (show (false : Bool) = true from hcontra) (by decide)
    · exact absurd hcontra (by simp)
    · exact absurd hcontra (by simp)
  · subst hab
    exact ⟨⟨fun _ => rfl, fun _ => rfl⟩, fun _ => rfl⟩

/-- Witness for C9: the sequence-constructed instance `pSeq` returns its
molar mass without raising. -/
theorem C9_witness :
    calc_molar_mass pSeq = Except.ok ((pSeq.dataset.map (fun r =>
      match r.props.molar_mass_residue with
      | some m => r.abundance_input * m
      | none => 0)).sum) :=
  (C9_molar_mass tbl24 colsW ("protein") none (some ("DD")) none pSeq rfl).2 rfl

/-- C10: constructing from an abundance list shorter than the table pads
the caller's list object in place with zeros up to the table length
(`list.extend` mutates the aliased object held in `self.kwargs`): after
construction, the stored object is the zero-extended list, of the table's
length and different from the original. -/
theorem C10_abundance_padded_in_place (tbl : List GroupRow) (cols : List String)
    (ab0 : List ℚ) (pk : Option String) (p : polyampholyte)
    (h : initialize_dataset tbl cols ("protein") (some ab0) none pk = Except.ok p)
    (hshort : ab0.length < tbl.length) :
    p.kwargs_abundance = some (ab0 ++ List.replicate (tbl.length - ab0.length) 0) ∧
    ∀ l, p.kwargs_abundance = some l → l.length = tbl.length ∧ l ≠ ab0 := by
  obtain ⟨-, -, hc⟩ := initialize_dataset_ok_cases tbl cols ("protein") (some ab0) none pk p h
  rcases hc with ⟨l, hab, hlen, rfl⟩ | ⟨hab, -⟩
  · have hl : ab0 = l := by
      injection hab
    subst hl
    refine ⟨rfl, ?_⟩
    intro l' hl'
    have hl'' : some (ab0 ++ List.replicate (tbl.length - ab0.length) 0) = some l' := hl'
    obtain rfl := (Option.some.injEq _ _).mp hl''
    constructor
    · exact hlen
    · intro hcontra
      have hcl := congrArg List.length hcontra
      rw [List.length_append, List.length_replicate] at hcl
      omega
  · exact absurd hab (by simp)

/-- Witness for C10: the caller's list `[1]` over the three-row table ends
up zero-padded to length three. -/
theorem C10_witness :
    pW1.kwargs_abundance = some ([1] ++ List.replicate (tblW.length - List.length [1]) 0) ∧
    ∀ l, pW1.kwargs_abundance = some l → l.length = tblW.length ∧ l ≠ [1] :=
  C10_abundance_padded_in_place tblW colsW [1] none pW1 rfl (by decide)

end PyPolyampholyte
